import Mathlib

/-!
Shallow embedding of the ninjabot Binance exchange adapter
(`pkg/exchange` package, file with `Binance`, `validate`, `OrderOCO`,
`formatPrice`, `formatQuantity`, `newOrder`, `CandleFromKline`,
`CandlesByLimit`, `NewBinance`).

Go `float64` values are modelled as exact rationals (`Rat`); Go string
fields stay `String`.  Calls to the external venue (`Account()`,
`CandlesByLimit`) are modelled through an explicit environment `Env`
holding the results those calls would return.  A Go function that can
panic (index out of range) is modelled with the `GoResult` type, which
has an explicit `panic` outcome.
-/

set_option autoImplicit false

/-- `model.SideType` restricted to the two constants the adapter uses
(`SideTypeBuy`, `SideTypeSell`). -/
inductive SideType where
  | buy
  | sell
  deriving DecidableEq, Repr

/-- `model.OrderType`: the six order-type constants of the model package. -/
inductive OrderType where
  | market
  | limit
  | limitMaker
  | stopLoss
  | stopLossLimit
  | takeProfit
  deriving DecidableEq, Repr

/-- `exchange.AssetInfo` (fields as in the Go struct; floats as `Rat`,
`int64` precisions as `Int`). -/
structure AssetInfo where
  BaseAsset : String
  QuoteAsset : String
  MinPrice : Rat
  MaxPrice : Rat
  MinQuantity : Rat
  MaxQuantity : Rat
  StepSize : Rat
  TickSize : Rat
  QtyDecimalPrecision : Int
  PriceDecimalPrecision : Int
  deriving DecidableEq, Repr

/-- `exchange.UserInfo`: maker and taker commission rates. -/
structure UserInfo where
  MakerCommission : Rat
  TakerCommission : Rat
  deriving DecidableEq, Repr

/-- `model.Balance`: one asset's free and locked amounts. -/
structure Balance where
  Tick : String
  Free : Rat
  Lock : Rat
  deriving DecidableEq, Repr

/-- `model.Account`: the list of balances returned by the venue. -/
structure Account where
  Balances : List Balance
  deriving DecidableEq, Repr

/-- Modelled from the spec: `model.Account.Balance` is not among the
sources; per the spec the Account is a collection of Balance records
keyed by asset tick, so the lookup returns the balance whose tick
matches, and the zero-value Balance (Go `Balance{}`) when none does. -/
def Account.Balance (a : Account) (tick : String) : Balance :=
  match a.Balances.find? (fun b => b.Tick = tick) with
  | some b => b
  | none => { Tick := "", Free := 0, Lock := 0 }

/-- `model.Candle` (the fields the adapter reads and writes). -/
structure Candle where
  Symbol : String
  Time : Int
  Open : Rat
  Close : Rat
  High : Rat
  Low : Rat
  Volume : Rat
  Trades : Int
  Complete : Bool
  deriving DecidableEq, Repr

/-- Validation errors of the adapter.  `ErrInvalidAsset`,
`ErrInvalidQuantity` (wrapped by `fmt.Errorf` together with the min/max
bounds) and `ErrInsufficientFunds` are the sentinel errors of the
exchange package; `external` carries an error propagated unchanged from
a venue call (`Account()` or `CandlesByLimit`). -/
inductive VError where
  | invalidAsset
  | invalidQuantity (min max : Rat)
  | insufficientFunds
  | external (msg : String)
  deriving DecidableEq, Repr

/-- Outcome of a Go computation: a value, a returned error, or a runtime
panic (such as an index-out-of-range access). -/
inductive GoResult (α : Type) where
  | ok (a : α)
  | err (e : VError)
  | panic
  deriving DecidableEq, Repr

/-- The venue environment: what `b.Account()` and
`b.CandlesByLimit(ctx, symbol, period, limit)` would return when the
adapter calls them. -/
structure Env where
  account : Except String Account
  candles : String → String → Nat → Except String (List Candle)

/-- `exchange.Binance`: the asset-info map (as a lookup function), the
user commission info, and the credentials. -/
structure Binance where
  assetsInfo : String → Option AssetInfo
  userInfo : UserInfo
  APIKey : String
  APISecret : String

/-- The commission factor computed at the top of `validate`
(part_001 lines 135-139): `1 + taker` for market / limit-maker /
stop-loss / take-profit order types, `1 + maker` otherwise. -/
def commissionFactor (u : UserInfo) (typ : OrderType) : Rat :=
  if typ = .market ∨ typ = .limitMaker ∨ typ = .stopLoss ∨ typ = .takeProfit then
    1 + u.TakerCommission
  else
    1 + u.MakerCommission

/-- `Binance.validate` (part_001 lines 118-160).  `value` is the Go
`*float64` argument (`none` = nil pointer).  A nil-value buy fetches one
candle via `CandlesByLimit(symbol, "1m", 1)` and dereferences
`candles[0]`, which panics when the returned slice is empty. -/
def Binance.validate (b : Binance) (env : Env) (side : SideType) (typ : OrderType)
    (symbol : String) (quantity : Rat) (value : Option Rat) : GoResult Unit :=
  match b.assetsInfo symbol with
  | none => .err .invalidAsset
  | some info =>
    if quantity > info.MaxQuantity ∨ quantity < info.MinQuantity then
      .err (.invalidQuantity info.MinQuantity info.MaxQuantity)
    else
      match env.account with
      | .error e => .err (.external e)
      | .ok account =>
        if side = .buy then
          match value with
          | none =>
            match env.candles symbol "1m" 1 with
            | .error e => .err (.external e)
            | .ok candles =>
              match candles with
              | [] => .panic
              | c :: _ =>
                if (account.Balance info.QuoteAsset).Free <
                    quantity * c.Close * commissionFactor b.userInfo typ then
                  .err .insufficientFunds
                else
                  .ok ()
          | some v =>
            if (account.Balance info.QuoteAsset).Free <
                quantity * v * commissionFactor b.userInfo typ then
              .err .insufficientFunds
            else
              .ok ()
        else
          if (account.Balance info.BaseAsset).Free <
              quantity * commissionFactor b.userInfo typ then
            .err .insufficientFunds
          else
            .ok ()

/-- Rounding a value to `p` decimal places, the numeric content of Go's
`strconv.FormatFloat(value, 'f', p, 64)` for `p ≥ 0`: the nearest
multiple of `10^-p`.  Go rounds the exact binary float to nearest
(resolving the — at this precision essentially unreachable — exact
midpoint case by its binary digits); the model uses round-half-up, and
no input considered below is a midpoint. -/
def roundToPrec (x : Rat) (p : Nat) : Rat :=
  (round (x * 10 ^ p) : Int) / 10 ^ p

/-- `Binance.formatPrice` (part_001 lines 216-222), as the rational
value denoted by the returned decimal string: the input rounded to the
symbol's `PriceDecimalPrecision` decimal places; with the symbol absent
the precision is `-1`, i.e. the shortest exact representation, so the
value is unchanged. -/
def Binance.formatPrice (b : Binance) (symbol : String) (value : Rat) : Rat :=
  match b.assetsInfo symbol with
  | some limits => roundToPrec value limits.PriceDecimalPrecision.toNat
  | none => value

/-- `Binance.formatQuantity` (part_001 lines 224-230), as the rational
value denoted by the returned decimal string. -/
def Binance.formatQuantity (b : Binance) (symbol : String) (value : Rat) : Rat :=
  match b.assetsInfo symbol with
  | some limits => roundToPrec value limits.QtyDecimalPrecision.toNat
  | none => value

/-- The OCO request assembled by `OrderOCO` (part_001 lines 177-185)
and handed to `CreateOCOService.Do`: side, symbol, and the formatted
quantity and prices (as the rational values the formatted strings
denote). -/
structure OCORequest where
  side : SideType
  symbol : String
  quantity : Rat
  price : Rat
  stopPrice : Rat
  stopLimitPrice : Rat
  deriving DecidableEq, Repr

/-- `Binance.OrderOCO` (part_001 lines 162-189) up to the venue call:
validate the stop-loss-limit leg at the stop-limit price, then the
limit-maker leg at the take-profit price; only when both validations
pass is the OCO request built and sent. -/
def Binance.orderOCORequest (b : Binance) (env : Env) (side : SideType) (symbol : String)
    (quantity price stop stopLimit : Rat) : GoResult OCORequest :=
  match b.validate env side .stopLossLimit symbol quantity (some stopLimit) with
  | .panic => .panic
  | .err e => .err e
  | .ok _ =>
    match b.validate env side .limitMaker symbol quantity (some price) with
    | .panic => .panic
    | .err e => .err e
    | .ok _ =>
      .ok { side := side
            symbol := symbol
            quantity := b.formatQuantity symbol quantity
            price := b.formatPrice symbol price
            stopPrice := b.formatPrice symbol stop
            stopLimitPrice := b.formatPrice symbol stopLimit }

/-- Value of a digit string read in base 10. -/
def digitsToNat (ds : List Char) : Nat :=
  ds.foldl (fun acc c => acc * 10 + (c.toNat - 48)) 0

/-- Every character is a decimal digit. -/
def isDigits (ds : List Char) : Bool :=
  ds.all (fun c => c.isDigit)

/-- Go `strconv.ParseFloat(s, 64)` restricted to plain decimal notation
(optional sign, integer digits, optional fraction digits) — the format
of every numeric string the venue sends.  `none` models the non-nil
error Go returns on malformed input (exponents, hex, Inf and NaN are
outside this model). -/
def parseDecimal (s : String) : Option Rat :=
  let signed : Rat × List Char :=
    match s.data with
    | '-' :: t => (-1, t)
    | '+' :: t => (1, t)
    | t => (1, t)
  match (signed.2.splitOn '.') with
  | [ip] =>
    if ip ≠ [] ∧ isDigits ip then
      some (signed.1 * (digitsToNat ip : Rat))
    else
      none
  | [ip, fp] =>
    if (ip ≠ [] ∨ fp ≠ []) ∧ isDigits ip ∧ isDigits fp then
      some (signed.1 * ((digitsToNat ip : Rat) + (digitsToNat fp : Rat) / 10 ^ fp.length))
    else
      none
  | _ => none

/-- The `v, _ := strconv.ParseFloat(s, 64)` pattern used throughout the
adapter: the parse error is discarded and a failed parse leaves the Go
zero value `0`. -/
def parseFloatDiscard (s : String) : Rat :=
  (parseDecimal s).getD 0

/-- `binance.Kline`: the raw candle record the venue returns, numeric
fields as strings. -/
structure Kline where
  OpenTime : Int
  Open : String
  High : String
  Low : String
  Close : String
  Volume : String
  TradeNum : Int
  deriving DecidableEq, Repr

/-- `exchange.CandleFromKline` (part_001 lines 455-465): numeric string
fields parsed with the error discarded (`parseFloatDiscard`); the
candle's time is the kline open time and `Complete` is always true. -/
def CandleFromKline (symbol : String) (k : Kline) : Candle :=
  { Symbol := symbol
    Time := k.OpenTime
    Open := parseFloatDiscard k.Open
    Close := parseFloatDiscard k.Close
    High := parseFloatDiscard k.High
    Low := parseFloatDiscard k.Low
    Volume := parseFloatDiscard k.Volume
    Trades := k.TradeNum
    Complete := true }

/-- `Binance.CandlesByLimit` (part_001 lines 412-430) given the kline
list the venue's kline service returns: on success every kline is
converted with `CandleFromKline` in order; an empty kline list yields an
empty (but successful) candle list. -/
def CandlesByLimit (symbol : String) (venueResult : Except String (List Kline)) :
    Except String (List Candle) :=
  match venueResult with
  | .error e => .error e
  | .ok data => .ok (data.map (CandleFromKline symbol))

/-- `binance.Order`: the raw order record the venue returns, numeric
fields as strings (`Typ` stands for the Go field `Type`). -/
structure RawOrder where
  OrderID : Int
  Symbol : String
  Time : Int
  Side : String
  Typ : String
  Status : String
  Price : String
  OrigQuantity : String
  ExecutedQuantity : String
  CummulativeQuoteQuantity : String
  deriving DecidableEq, Repr

/-- `model.Order` as `newOrder` fills it (`Typ` stands for the Go field
`Type`; the string enums stay strings, as the Go conversions are casts). -/
structure Order where
  ExchangeID : Int
  Symbol : String
  Date : Int
  Side : String
  Typ : String
  Status : String
  Price : Rat
  Quantity : Rat
  deriving DecidableEq, Repr

/-- `exchange.newOrder` (part_001 lines 334-355): parse cost and
executed quantity with errors discarded; if both are positive the price
is cost/quantity, otherwise price and quantity are re-parsed from the
order's `Price` and `OrigQuantity` — again with errors discarded, so a
malformed field silently becomes `0` and no error reaches the caller. -/
def newOrder (o : RawOrder) : Order :=
  let cost := parseFloatDiscard o.CummulativeQuoteQuantity
  let quantity := parseFloatDiscard o.ExecutedQuantity
  if 0 < cost ∧ 0 < quantity then
    { ExchangeID := o.OrderID
      Symbol := o.Symbol
      Date := o.Time
      Side := o.Side
      Typ := o.Typ
      Status := o.Status
      Price := cost / quantity
      Quantity := quantity }
  else
    { ExchangeID := o.OrderID
      Symbol := o.Symbol
      Date := o.Time
      Side := o.Side
      Typ := o.Typ
      Status := o.Status
      Price := parseFloatDiscard o.Price
      Quantity := parseFloatDiscard o.OrigQuantity }

/-- Fuel-bounded search for the least `k` with `x * 10^k` integral. -/
def numDecAux : Nat → Rat → Nat
  | 0, _ => 0
  | fuel + 1, x => if x.den = 1 then 0 else numDecAux fuel (x * 10) + 1

/-- Modelled from the spec: `model.NumDecPlaces` is not among the
sources; per the spec the decimal precision is derived from the
step/tick size as its number of decimal places.  For a rational this is
the least `k` with `x * 10^k` integral (every Go float64 admits such a
`k ≤ 40` when any does at all, so the fuel bound is immaterial). -/
def NumDecPlaces (x : Rat) : Int :=
  (numDecAux 40 x : Nat)

/-- The per-symbol `AssetInfo` construction of `NewBinance`
(part_001 lines 88-111), with the already-parsed filter values as
inputs: the precisions are derived from the step and tick sizes with
`NumDecPlaces`. -/
def mkAssetInfo (base quote : String) (minP maxP minQ maxQ step tick : Rat) : AssetInfo :=
  { BaseAsset := base
    QuoteAsset := quote
    MinPrice := minP
    MaxPrice := maxP
    MinQuantity := minQ
    MaxQuantity := maxQ
    StepSize := step
    TickSize := tick
    QtyDecimalPrecision := NumDecPlaces step
    PriceDecimalPrecision := NumDecPlaces tick }

/-- The `UserInfo` initialization of `NewBinance` (part_001 lines
67-79): the account's integer commission rates divided by 10000 are
stored only when both credentials are present; otherwise `userInfo`
keeps its zero value. -/
def newBinanceUserInfo (key secret : String) (accMaker accTaker : Int) : UserInfo :=
  if key ≠ "" ∧ secret ≠ "" then
    { MakerCommission := (accMaker : Rat) / 10000
      TakerCommission := (accTaker : Rat) / 10000 }
  else
    { MakerCommission := 0, TakerCommission := 0 }

/-! Concrete instances used to witness the theorems below. -/

/-- A BTCUSDT asset-info row with the bounds and sizes of the spec's
examples (step 0.001, tick 0.01, quantity bounds [0.001, 10000]). -/
def infoC1 : AssetInfo :=
  { BaseAsset := "BTC"
    QuoteAsset := "USDT"
    MinPrice := 1/100
    MaxPrice := 1000000
    MinQuantity := 1/1000
    MaxQuantity := 10000
    StepSize := 1/1000
    TickSize := 1/100
    QtyDecimalPrecision := 3
    PriceDecimalPrecision := 2 }

/-- A broker holding `infoC1` for BTCUSDT, with taker rate 0.001 and
maker rate 0.002. -/
def bC1 : Binance :=
  { assetsInfo := fun s => if s = "BTCUSDT" then some infoC1 else none
    userInfo := { MakerCommission := 2/1000, TakerCommission := 1/1000 }
    APIKey := "key", APISecret := "secret" }

/-- An account with 100 USDT free and 5 BTC free. -/
def acctC1 : Account :=
  { Balances := [{ Tick := "USDT", Free := 100, Lock := 0 },
                 { Tick := "BTC", Free := 5, Lock := 0 }] }

/-- An environment whose account query returns `acctC1` and whose
one-candle query returns a single candle closing at 101. -/
def envC1 : Env :=
  { account := .ok acctC1
    candles := fun symbol _ _ =>
      .ok [{ Symbol := symbol, Time := 0, Open := 100, Close := 101, High := 102,
             Low := 99, Volume := 10, Trades := 5, Complete := true }] }

/-- A broker for the C3/C4 quantization examples whose asset info is
built through `mkAssetInfo`, deriving the precisions from step 0.001
and tick 0.01 with `NumDecPlaces`. -/
def bC3 : Binance :=
  { assetsInfo := fun s =>
      if s = "BTCUSDT" then some (mkAssetInfo "BTC" "USDT" (1/100) 1000000 (1/1000) 10000 (1/1000) (1/100))
      else none
    userInfo := { MakerCommission := 0, TakerCommission := 0 }
    APIKey := "key", APISecret := "secret" }

/-- A broker whose ETHUSDT row has the non-power-of-ten step size 0.002
(and tick 0.01), precisions again derived with `NumDecPlaces`. -/
def bC4 : Binance :=
  { assetsInfo := fun s =>
      if s = "ETHUSDT" then some (mkAssetInfo "ETH" "USDT" (1/100) 1000000 (2/1000) 10000 (2/1000) (1/100))
      else none
    userInfo := { MakerCommission := 0, TakerCommission := 0 }
    APIKey := "key", APISecret := "secret" }

/-- An environment whose one-candle query succeeds with an empty candle
list, exactly what `CandlesByLimit` yields when the venue's kline
service returns an empty slice. -/
def envC9 : Env :=
  { account := .ok acctC1
    candles := fun symbol _ _ => CandlesByLimit symbol (.ok []) }

/-- A venue order record whose numeric fields are malformed. -/
def rawC8 : RawOrder :=
  { OrderID := 42
    Symbol := "BTCUSDT"
    Time := 0
    Side := "BUY"
    Typ := "LIMIT"
    Status := "NEW"
    Price := "12x.5"
    OrigQuantity := "bad"
    ExecutedQuantity := ""
    CummulativeQuoteQuantity := "" }

/-! Helper lemmas: branch-level descriptions of `validate`. -/

/-- `numDecAux` on an integral value is 0. -/
theorem numDecAux_den_one (fuel : Nat) (x : Rat) (h : x.den = 1) :
    numDecAux (fuel + 1) x = 0 := by
  simp [numDecAux, h]

/-- `numDecAux` steps past a non-integral value. -/
theorem numDecAux_step (fuel : Nat) (x : Rat) (h : x.den ≠ 1) :
    numDecAux (fuel + 1) x = numDecAux fuel (x * 10) + 1 := by
  simp [numDecAux, h]

/-- 0.001 has three decimal places. -/
theorem numDecPlaces_milli : NumDecPlaces (1/1000 : Rat) = 3 := by
  rw [NumDecPlaces, show (40 : Nat) = 39 + 1 from rfl, numDecAux_step _ _ (by norm_num),
    show (39 : Nat) = 38 + 1 from rfl, numDecAux_step _ _ (by norm_num),
    show (38 : Nat) = 37 + 1 from rfl, numDecAux_step _ _ (by norm_num),
    show (37 : Nat) = 36 + 1 from rfl, numDecAux_den_one _ _ (by norm_num)]
  norm_num

/-- 0.01 has two decimal places. -/
theorem numDecPlaces_centi : NumDecPlaces (1/100 : Rat) = 2 := by
  rw [NumDecPlaces, show (40 : Nat) = 39 + 1 from rfl, numDecAux_step _ _ (by norm_num),
    show (39 : Nat) = 38 + 1 from rfl, numDecAux_step _ _ (by norm_num),
    show (38 : Nat) = 37 + 1 from rfl, numDecAux_den_one _ _ (by norm_num)]
  norm_num

/-- 0.002 (= 1/500) has three decimal places. -/
theorem numDecPlaces_two_milli : NumDecPlaces (1/500 : Rat) = 3 := by
  rw [NumDecPlaces, show (40 : Nat) = 39 + 1 from rfl, numDecAux_step _ _ (by norm_num),
    show (39 : Nat) = 38 + 1 from rfl, numDecAux_step _ _ (by norm_num),
    show (38 : Nat) = 37 + 1 from rfl, numDecAux_step _ _ (by norm_num),
    show (37 : Nat) = 36 + 1 from rfl, numDecAux_den_one _ _ (by norm_num)]
  norm_num

/-- An insufficient-funds conditional equals the error exactly when the
condition holds. -/
theorem ite_insufficient_iff (c : Prop) [Decidable c] :
    ((if c then (.err .insufficientFunds : GoResult Unit) else .ok ())
        = .err .insufficientFunds) ↔ c := by
  split <;> simp_all

/-- `validate` on a buy with an explicit price, in-bounds quantity and a
successful account query reduces to the quote-balance check. -/
theorem validate_buy_some (b : Binance) (env : Env) (typ : OrderType) (symbol : String)
    (q v : Rat) (info : AssetInfo) (acct : Account)
    (hinfo : b.assetsInfo symbol = some info)
    (hmax : q ≤ info.MaxQuantity) (hmin : info.MinQuantity ≤ q)
    (hacct : env.account = .ok acct) :
    b.validate env .buy typ symbol q (some v) =
      if (acct.Balance info.QuoteAsset).Free < q * v * commissionFactor b.userInfo typ then
        .err .insufficientFunds
      else
        .ok () := by
  rw [Binance.validate]
  simp only [hinfo, hacct]
  rw [if_neg (by push_neg; exact ⟨hmax, hmin⟩)]
  simp

/-- `validate` on a sell with in-bounds quantity and a successful
account query reduces to the base-balance check (the explicit price, if
any, is ignored). -/
theorem validate_sell (b : Binance) (env : Env) (typ : OrderType) (symbol : String)
    (q : Rat) (value : Option Rat) (info : AssetInfo) (acct : Account)
    (hinfo : b.assetsInfo symbol = some info)
    (hmax : q ≤ info.MaxQuantity) (hmin : info.MinQuantity ≤ q)
    (hacct : env.account = .ok acct) :
    b.validate env .sell typ symbol q value =
      if (acct.Balance info.BaseAsset).Free < q * commissionFactor b.userInfo typ then
        .err .insufficientFunds
      else
        .ok () := by
  rw [Binance.validate]
  simp only [hinfo, hacct]
  rw [if_neg (by push_neg; exact ⟨hmax, hmin⟩)]
  simp

/-! Claim theorems. -/

/-- C1: with the symbol known, the quantity within bounds and the
account query successful, validation fails with `InsufficientFunds`
exactly when the relevant free balance is strictly below the required
funds: quantity × price × commission-factor against the quote asset's
free balance for a buy, and quantity × commission-factor against the
base asset's free balance for a sell. -/
theorem C1_insufficient_funds_iff (b : Binance) (env : Env) (typ : OrderType)
    (symbol : String) (q v : Rat) (value : Option Rat) (info : AssetInfo) (acct : Account)
    (hinfo : b.assetsInfo symbol = some info)
    (hmax : q ≤ info.MaxQuantity) (hmin : info.MinQuantity ≤ q)
    (hacct : env.account = .ok acct) :
    (b.validate env .buy typ symbol q (some v) = .err .insufficientFunds ↔
      (acct.Balance info.QuoteAsset).Free < q * v * commissionFactor b.userInfo typ)
    ∧ (b.validate env .sell typ symbol q value = .err .insufficientFunds ↔
      (acct.Balance info.BaseAsset).Free < q * commissionFactor b.userInfo typ) := by
  constructor
  · rw [validate_buy_some b env typ symbol q v info acct hinfo hmax hmin hacct]
    exact ite_insufficient_iff _
  · rw [validate_sell b env typ symbol q value info acct hinfo hmax hmin hacct]
    exact ite_insufficient_iff _

/-- C1 witness: the spec's example — quote free balance 100, taker
commission 0.001 (market order, so factor 1.001), buying quantity 1 at
price 101 fails with `InsufficientFunds` since 101.101 > 100. -/
theorem C1_witness :
    bC1.validate envC1 .buy .market "BTCUSDT" 1 (some 101) = .err .insufficientFunds := by
  have h := C1_insufficient_funds_iff bC1 envC1 .market "BTCUSDT" 1 101 none infoC1 acctC1
    (by simp [bC1]) (by norm_num [infoC1]) (by norm_num [infoC1]) rfl
  exact h.1.mpr (by
    simp [acctC1, infoC1, Account.Balance, List.find?, bC1, commissionFactor]
    norm_num)

/-- C2: with the symbol known, the quantity within bounds and the
account query successful, the balance check of a buy validation uses the
taker rate when the order type is market, limit-maker, stop-loss or
take-profit, and the maker rate for every other order type (limit,
stop-loss-limit). -/
theorem C2_commission_rate_by_type (b : Binance) (env : Env) (typ : OrderType)
    (symbol : String) (q v : Rat) (info : AssetInfo) (acct : Account)
    (hinfo : b.assetsInfo symbol = some info)
    (hmax : q ≤ info.MaxQuantity) (hmin : info.MinQuantity ≤ q)
    (hacct : env.account = .ok acct) :
    ((typ = .market ∨ typ = .limitMaker ∨ typ = .stopLoss ∨ typ = .takeProfit) →
      (b.validate env .buy typ symbol q (some v) = .err .insufficientFunds ↔
        (acct.Balance info.QuoteAsset).Free < q * v * (1 + b.userInfo.TakerCommission)))
    ∧ ((typ = .limit ∨ typ = .stopLossLimit) →
      (b.validate env .buy typ symbol q (some v) = .err .insufficientFunds ↔
        (acct.Balance info.QuoteAsset).Free < q * v * (1 + b.userInfo.MakerCommission))) := by
  constructor
  · intro ht
    rw [validate_buy_some b env typ symbol q v info acct hinfo hmax hmin hacct,
      show commissionFactor b.userInfo typ = 1 + b.userInfo.TakerCommission from by
        simp [commissionFactor, ht]]
    exact ite_insufficient_iff _
  · intro ht
    rw [validate_buy_some b env typ symbol q v info acct hinfo hmax hmin hacct,
      show commissionFactor b.userInfo typ = 1 + b.userInfo.MakerCommission from by
        rcases ht with h | h <;> subst h <;> simp [commissionFactor]]
    exact ite_insufficient_iff _

/-- C2 witness: the same balances as C1's example but a limit order, so
the maker rate 0.002 applies — the check fails since 101 × 1.002 =
101.202 > 100. -/
theorem C2_witness :
    bC1.validate envC1 .buy .limit "BTCUSDT" 1 (some 101) = .err .insufficientFunds := by
  have h := C2_commission_rate_by_type bC1 envC1 .limit "BTCUSDT" 1 101 infoC1 acctC1
    (by simp [bC1]) (by norm_num [infoC1]) (by norm_num [infoC1]) rfl
  exact (h.2 (Or.inl rfl)).mpr (by
    simp [acctC1, infoC1, Account.Balance, List.find?, bC1]
    norm_num)

/-- C10: when the broker is constructed without credentials (empty key
or empty secret), the stored commission rates are both 0 and the
commission factor of every subsequent validation is exactly 1,
regardless of order type. -/
theorem C10_default_commission_factor_one (key secret : String) (accMaker accTaker : Int)
    (typ : OrderType) (h : key = "" ∨ secret = "") :
    newBinanceUserInfo key secret accMaker accTaker
        = { MakerCommission := 0, TakerCommission := 0 }
    ∧ commissionFactor (newBinanceUserInfo key secret accMaker accTaker) typ = 1 := by
  have hz : newBinanceUserInfo key secret accMaker accTaker
      = { MakerCommission := 0, TakerCommission := 0 } := by
    rw [newBinanceUserInfo, if_neg]
    rcases h with h | h <;> simp [h]
  refine ⟨hz, ?_⟩
  rw [hz, commissionFactor]
  split <;> norm_num

/-- C10 witness: with an empty key (and nonzero venue rates 15/25) the
stored rates are zero and a limit order's commission factor is 1. -/
theorem C10_witness :
    newBinanceUserInfo "" "secret" 15 25 = { MakerCommission := 0, TakerCommission := 0 }
    ∧ commissionFactor (newBinanceUserInfo "" "secret" 15 25) .limit = 1 :=
  C10_default_commission_factor_one "" "secret" 15 25 .limit (Or.inl rfl)

/-- C5: with the symbol known (and sane bounds, min ≤ max), a quantity
strictly above the maximum or strictly below the minimum is rejected
with `InvalidQuantity` carrying the two bounds, while a quantity equal
to either bound never produces an `InvalidQuantity` error. -/
theorem C5_invalid_quantity_bounds (b : Binance) (env : Env) (side : SideType)
    (typ : OrderType) (symbol : String) (q : Rat) (value : Option Rat) (info : AssetInfo)
    (hinfo : b.assetsInfo symbol = some info)
    (hmm : info.MinQuantity ≤ info.MaxQuantity) :
    ((q > info.MaxQuantity ∨ q < info.MinQuantity) →
      b.validate env side typ symbol q value
        = .err (.invalidQuantity info.MinQuantity info.MaxQuantity))
    ∧ ((q = info.MaxQuantity ∨ q = info.MinQuantity) →
      ∀ mn mx, b.validate env side typ symbol q value ≠ .err (.invalidQuantity mn mx)) := by
  constructor
  · intro hq
    rw [Binance.validate]
    simp only [hinfo]
    rw [if_pos hq]
  · intro hq mn mx
    have hle : ¬(q > info.MaxQuantity ∨ q < info.MinQuantity) := by
      push_neg
      rcases hq with h | h
      · subst h; exact ⟨le_refl _, hmm⟩
      · subst h; exact ⟨hmm, le_refl _⟩
    rw [Binance.validate]
    simp only [hinfo]
    rw [if_neg hle]
    rcases env.account with e | acct
    · simp
    · simp only
      split
      · rcases value with _ | v
        · rcases hc : env.candles symbol "1m" 1 with e | cs
          · simp
          · rcases cs with _ | ⟨c, rest⟩
            · simp
            · simp only
              split <;> simp
        · simp only
          split <;> simp
      · split <;> simp

/-- C5 witness: with bounds [0.001, 10000], quantity 20000 is rejected
with `InvalidQuantity` carrying those bounds, and quantity 10000 (equal
to the maximum) is not rejected with `InvalidQuantity`. -/
theorem C5_witness :
    bC1.validate envC1 .sell .limit "BTCUSDT" 20000 none
        = .err (.invalidQuantity (1/1000) 10000)
    ∧ bC1.validate envC1 .sell .limit "BTCUSDT" 10000 none
        ≠ .err (.invalidQuantity (1/1000) 10000) := by
  constructor
  · have h := (C5_invalid_quantity_bounds bC1 envC1 .sell .limit "BTCUSDT" 20000 none infoC1
      (by simp [bC1]) (by norm_num [infoC1])).1 (Or.inl (by norm_num [infoC1]))
    simpa [infoC1] using h
  · exact (C5_invalid_quantity_bounds bC1 envC1 .sell .limit "BTCUSDT" 10000 none infoC1
      (by simp [bC1]) (by norm_num [infoC1])).2 (Or.inl (by norm_num [infoC1])) (1/1000) 10000

/-- C6: an OCO submission validates the stop-loss-limit leg (at the
stop-limit price) and then the limit-maker leg (at the take-profit
price) before any request is built for the venue: a failure of either
leg is returned as-is and no request is produced, and a request is
produced only when both legs validated successfully. -/
theorem C6_oco_validates_before_send (b : Binance) (env : Env) (side : SideType)
    (symbol : String) (quantity price stop stopLimit : Rat) :
    (∀ e, b.validate env side .stopLossLimit symbol quantity (some stopLimit) = .err e →
      b.orderOCORequest env side symbol quantity price stop stopLimit = .err e)
    ∧ (∀ e, b.validate env side .stopLossLimit symbol quantity (some stopLimit) = .ok () →
      b.validate env side .limitMaker symbol quantity (some price) = .err e →
      b.orderOCORequest env side symbol quantity price stop stopLimit = .err e)
    ∧ (∀ r, b.orderOCORequest env side symbol quantity price stop stopLimit = .ok r →
      b.validate env side .stopLossLimit symbol quantity (some stopLimit) = .ok ()
      ∧ b.validate env side .limitMaker symbol quantity (some price) = .ok ()) := by
  refine ⟨?_, ?_, ?_⟩
  · intro e h
    rw [Binance.orderOCORequest]
    simp only [h]
  · intro e h1 h2
    rw [Binance.orderOCORequest]
    simp only [h1, h2]
  · intro r hr
    rw [Binance.orderOCORequest] at hr
    rcases h1 : b.validate env side .stopLossLimit symbol quantity (some stopLimit)
      with a | e | _
    · cases a
      rcases h2 : b.validate env side .limitMaker symbol quantity (some price)
        with a | e | _
      · cases a
        exact ⟨rfl, rfl⟩
      · simp [h1, h2] at hr
      · simp [h1, h2] at hr
    · simp [h1] at hr
    · simp [h1] at hr

/-- C6 witness: with an unknown symbol the stop leg's validation fails
with `InvalidAsset`, and the OCO submission returns exactly that error
(producing no request). -/
theorem C6_witness :
    bC1.orderOCORequest envC1 .sell "NOPE" 1 2 3 4 = .err .invalidAsset :=
  (C6_oco_validates_before_send bC1 envC1 .sell "NOPE" 1 2 3 4).1 .invalidAsset
    (by rw [Binance.validate]; simp [bC1])

/-- C7: when a buy is validated with no explicit price and the
one-candle fetch for the symbol returns a single candle, validation
behaves exactly as if the explicit price had been that candle's close. -/
theorem C7_market_buy_reference_close (b : Binance) (env : Env) (typ : OrderType)
    (symbol : String) (q : Rat) (c : Candle)
    (hcand : env.candles symbol "1m" 1 = .ok [c]) :
    b.validate env .buy typ symbol q none = b.validate env .buy typ symbol q (some c.Close) := by
  rw [Binance.validate, Binance.validate]
  simp only [hcand]

/-- C7 witness: in the concrete environment whose single most recent
candle closes at 101, a no-price market buy validates exactly as a buy
at explicit price 101. -/
theorem C7_witness :
    bC1.validate envC1 .buy .market "BTCUSDT" 1 none
      = bC1.validate envC1 .buy .market "BTCUSDT" 1 (some 101) := by
  have h := C7_market_buy_reference_close bC1 envC1 .market "BTCUSDT" 1
    { Symbol := "BTCUSDT", Time := 0, Open := 100, Close := 101, High := 102,
      Low := 99, Volume := 10, Trades := 5, Complete := true } rfl
  simpa using h

/-- C3 counterexample: with step size 0.001 the code does not quantize
quantity 1.23456 to 1.234 — `strconv.FormatFloat` rounds to nearest, so
the formatted quantity is 1.235, not the truncated 1.234 the claim
states. -/
theorem C3_counterexample : bC3.formatQuantity "BTCUSDT" (123456/100000) ≠ 617/500 := by
  rw [Binance.formatQuantity]
  simp only [bC3, if_pos]
  norm_num [mkAssetInfo, numDecPlaces_milli, roundToPrec, round_eq,
    show (3:Int).toNat = 3 from rfl]

/-- C3 amended: with step size 0.001 and tick size 0.01, quantity
1.23456 quantizes to 1.235 (round to nearest, 247/200) and price
100.004 (= 25001/250) quantizes to 100.00. -/
theorem C3_amended :
    bC3.formatQuantity "BTCUSDT" (123456/100000) = 247/200
    ∧ bC3.formatPrice "BTCUSDT" (25001/250) = 100 := by
  constructor
  · rw [Binance.formatQuantity]
    simp only [bC3, if_pos]
    norm_num [mkAssetInfo, numDecPlaces_milli, roundToPrec, round_eq,
      show (3:Int).toNat = 3 from rfl]
  · rw [Binance.formatPrice]
    simp only [bC3, if_pos]
    norm_num [mkAssetInfo, numDecPlaces_centi, roundToPrec, round_eq,
      show (2:Int).toNat = 2 from rfl]

/-- C4 counterexample: for a symbol whose step size 0.002 is not a
power of ten, the derived precision is 3 decimal places, so quantity
1.001 passes through quantization unchanged — and 1.001 is not an
integer multiple of 0.002. -/
theorem C4_counterexample :
    bC4.assetsInfo "ETHUSDT"
        = some (mkAssetInfo "ETH" "USDT" (1/100) 1000000 (2/1000) 10000 (2/1000) (1/100))
    ∧ (mkAssetInfo "ETH" "USDT" (1/100) 1000000 (2/1000) 10000 (2/1000) (1/100)).StepSize
        = 2/1000
    ∧ bC4.formatQuantity "ETHUSDT" (1001/1000) = 1001/1000
    ∧ ¬ ∃ n : Int, (1001/1000 : Rat) = n * (2/1000) := by
  refine ⟨by simp [bC4], by simp [mkAssetInfo], ?_, ?_⟩
  · rw [Binance.formatQuantity]
    simp only [bC4, if_pos]
    norm_num [mkAssetInfo, numDecPlaces_two_milli, roundToPrec, round_eq,
      show (3:Int).toNat = 3 from rfl]
  · rintro ⟨n, hn⟩
    have h2 : (2 * n : Rat) = 1001 := by field_simp at hn; linarith
    have h3 : (2 * n : Int) = 1001 := by exact_mod_cast h2
    omega

/-- C4 amended: for a symbol present in the table whose step and tick
sizes are exactly the powers of ten matching the stored precisions
(step = 10^-qtyPrecision, tick = 10^-pricePrecision, as for every real
venue symbol), the quantized quantity and price are exact integer
multiples of the step and tick size. -/
theorem C4_amended (b : Binance) (symbol : String) (info : AssetInfo) (q p : Rat)
    (hinfo : b.assetsInfo symbol = some info)
    (hstep : info.StepSize = 1 / 10 ^ info.QtyDecimalPrecision.toNat)
    (htick : info.TickSize = 1 / 10 ^ info.PriceDecimalPrecision.toNat) :
    (∃ n : Int, b.formatQuantity symbol q = n * info.StepSize)
    ∧ (∃ n : Int, b.formatPrice symbol p = n * info.TickSize) := by
  constructor
  · refine ⟨round (q * 10 ^ info.QtyDecimalPrecision.toNat), ?_⟩
    rw [Binance.formatQuantity]
    simp only [hinfo]
    rw [roundToPrec, hstep]
    field_simp
  · refine ⟨round (p * 10 ^ info.PriceDecimalPrecision.toNat), ?_⟩
    rw [Binance.formatPrice]
    simp only [hinfo]
    rw [roundToPrec, htick]
    field_simp

/-- C4 witness: for the BTCUSDT row with step 0.001 = 10^-3 and tick
0.01 = 10^-2, the quantized quantity 1.23456 and price 100.004 are
integer multiples of 0.001 and 0.01. -/
theorem C4_witness :
    (∃ n : Int, bC3.formatQuantity "BTCUSDT" (123456/100000) = n * (1/1000))
    ∧ (∃ n : Int, bC3.formatPrice "BTCUSDT" (25001/250) = n * (1/100)) := by
  have h := C4_amended bC3 "BTCUSDT"
    (mkAssetInfo "BTC" "USDT" (1/100) 1000000 (1/1000) 10000 (1/1000) (1/100))
    (123456/100000) (25001/250) (by simp [bC3])
    (by norm_num [mkAssetInfo, numDecPlaces_milli, show (3:Int).toNat = 3 from rfl])
    (by norm_num [mkAssetInfo, numDecPlaces_centi, show (2:Int).toNat = 2 from rfl])
  simpa [mkAssetInfo] using h

/-- C9 counterexample: the one-candle lookup can succeed with an empty
sequence (this is exactly what `CandlesByLimit` returns when the venue
reports no klines), and validating a no-price buy then performs the
out-of-bounds `candles[0]` access — the claim that a successful lookup
is necessarily non-empty does not hold. -/
theorem C9_counterexample :
    envC9.candles "BTCUSDT" "1m" 1 = .ok [] ∧
    bC1.validate envC9 .buy .market "BTCUSDT" 1 none = .panic := by
  constructor
  · rfl
  · rw [Binance.validate]
    norm_num [bC1, envC9, infoC1, CandlesByLimit]

/-- C9 amended: whenever every successful one-candle lookup for the
symbol is non-empty, validation never reaches the out-of-bounds access
(never panics); taking the first element is safe precisely under that
non-emptiness assumption. -/
theorem C9_amended_no_oob (b : Binance) (env : Env) (side : SideType) (typ : OrderType)
    (symbol : String) (q : Rat) (value : Option Rat)
    (h : ∀ cs, env.candles symbol "1m" 1 = .ok cs → cs ≠ []) :
    b.validate env side typ symbol q value ≠ .panic := by
  rw [Binance.validate]
  rcases b.assetsInfo symbol with _ | info
  · simp
  · simp only
    split
    · simp
    · rcases env.account with e | acct
      · simp
      · simp only
        split
        · rcases value with _ | v
          · rcases hc : env.candles symbol "1m" 1 with e | cs
            · simp
            · rcases cs with _ | ⟨c, rest⟩
              · exact absurd rfl (h [] hc)
              · simp only
                split <;> simp
          · simp only
            split <;> simp
        · split <;> simp

/-- C9 witness: in the environment whose lookup returns one candle, a
no-price market buy validation does not panic. -/
theorem C9_witness : bC1.validate envC1 .buy .market "BTCUSDT" 1 none ≠ .panic := by
  refine C9_amended_no_oob bC1 envC1 .buy .market "BTCUSDT" 1 none ?_
  intro cs hcs
  simp [envC1] at hcs
  simp [← hcs]

/-- C8 (code bug per the spec): parsing a venue order whose numeric
fields are malformed does not surface any error — `newOrder` has no
error channel at all, and the `v, _ := strconv.ParseFloat` pattern
coerces the malformed price "12x.5" and quantity "bad" silently to 0,
exactly the zero-defaulting the spec calls a latent defect that must
instead surface a `DataCorruptionError`. -/
theorem C8_parse_errors_coerced_to_zero :
    parseDecimal "12x.5" = none
    ∧ parseDecimal "bad" = none
    ∧ (newOrder rawC8).Price = 0
    ∧ (newOrder rawC8).Quantity = 0 := by
  decide
